import Mathlib

/-!
Shallow embedding of the KillSim simulation core (src/core/agent.py,
src/core/room.py, src/core/environment.py, src/core/config.py).

Conventions of the embedding:
* Python floats are modelled as exact rationals (ℚ); Python ints as ℤ.
* `random.choice(seq)` is modelled by an externally supplied draw
  `k : Nat`, selecting `seq[k % len(seq)]`.  Each `Agent.decide` call
  performs at most one `random.choice`, so one draw per call suffices;
  the engine threads one draw per agent id per step.  All theorems
  quantify over (or fix) the draws, so every behaviour of the Python
  program with its global RNG corresponds to some draw function here.
* A Python `dict` of rooms keyed by id is modelled as a total function
  `ℤ → Room` together with the list `roomIds` of keys (used for the
  loops that iterate over `self.rooms.values()`).  Looking up a missing
  key would raise `KeyError` in Python; the claims under study only
  concern states whose agent locations and room connections refer to
  existing rooms, where the function model agrees with the dict.
* `agent.trust` (a Python dict with `.get(key, 0.0)` reads) is modelled
  as a total function `ℤ → ℚ` that is 0 outside the stored keys.
* Python's `round(x, 2)` is modelled as exact round-half-to-even on the
  rational scaled by 100 (the binary-float idealization).
-/

namespace KillSim

/-- The `Action` enum from `core/actions.py` as used by the engine:
`Action.EAT`, `Action.MOVE`, `Action.TALK`. -/
inductive Action where
  | EAT : Action
  | MOVE : Action
  | TALK : Action
deriving DecidableEq, Repr

/-- A decision as recorded by `Environment.step`: `(action, params)`. -/
abbrev Decision := Action × Option ℤ

/-- `core/room.py`: `Room(id, capacity, connectedRooms, food)` plus the
`agents` occupancy list maintained by the environment. -/
structure Room where
  id : ℤ
  capacity : ℤ
  food : ℚ
  agents : List ℤ
  connectedRooms : List ℤ

/-- `core/agent.py`: the `Agent` dataclass. -/
structure Agent where
  id : ℤ
  location : ℤ
  hunger : ℚ
  alive : Bool
  trust : ℤ → ℚ

/-- A fallback agent used only to make list indexing total in theorem
statements (`List.getD`); its fields are inert defaults. -/
def dummyAgent : Agent :=
  { id := 0, location := 0, hunger := 0, alive := false, trust := fun _ => 0 }

/-- `random.choice(l)` with an explicit draw `k`: selects `l[k % len l]`. -/
def choice (l : List ℤ) (k : Nat) : ℤ :=
  l.getD (k % l.length) 0

/-- `Agent.decide` from `core/agent.py`, with one explicit random draw
`k` standing for the single `random.choice` the chosen branch makes. -/
def Agent.decide (a : Agent) (room : Room) (k : Nat) : Decision :=
  -- 1st Priority (code comment): eat if hungry and sufficient food available
  if a.hunger > 2/5 ∧ room.food > 1/10 then
    (Action.EAT, none)
  -- 2nd Priority: move to find food if very hungry and little/no food here
  else if a.hunger > 3/5 ∧ room.food < 1/5 ∧ room.connectedRooms ≠ [] then
    (Action.MOVE, some (choice room.connectedRooms k))
  else
    -- 3rd Priority: talk to other agents (build trust)
    let other_agents := room.agents.filter (fun agent_id => agent_id ≠ a.id)
    if other_agents ≠ [] then
      (Action.TALK, some (choice other_agents k))
    else if room.connectedRooms ≠ [] then
      (Action.MOVE, some (choice room.connectedRooms k))
    else if room.food > 0 then
      (Action.EAT, none)
    else
      (Action.TALK, none)

/-- The environment state: the rooms dict (`roomIds` lists the dict's
keys, `rooms` is the lookup) and the agents list, as held by
`Environment` in `core/environment.py`. -/
structure Env where
  roomIds : List ℤ
  rooms : ℤ → Room
  agents : List Agent

/-- Update the room stored under key `i` of the rooms dict. -/
def updRoom (rooms : ℤ → Room) (i : ℤ) (f : Room → Room) : ℤ → Room :=
  Function.update rooms i (f (rooms i))

/-- Round half to even on ℤ-valued position, for `round(x, 2)`. -/
def roundHalfEven (q : ℚ) : ℤ :=
  let n := ⌊q⌋
  let r := q - n
  if r < 1/2 then n
  else if 1/2 < r then n + 1
  else if n % 2 = 0 then n else n + 1

/-- Python `round(x, 2)` idealized over ℚ. -/
def round2 (q : ℚ) : ℚ :=
  (roundHalfEven (q * 100) : ℚ) / 100

/-- Effect of a resolved TALK on the acting agent (lines 61–62):
`trust[p] = round(trust.get(p, 0.0) + 0.05, 2)` followed by
`trust[p] = min(1.0, trust[p])`. -/
def talkUpdate (a : Agent) (p : ℤ) : Agent :=
  { a with trust := Function.update a.trust p (min 1 (round2 (a.trust p + 1/20))) }

/-- One iteration of the resolution loop of `Environment.step`
(lines 41–62): resolve the recorded decision of the agent at list
position `i`.  `d` is the lookup into `action_decisions`; `step`
records a decision for every living agent, so the `none` case is
unreachable there (Python would raise `KeyError`). -/
def resolveOne (d : ℤ → Option Decision) (env : Env) (i : Nat) : Env :=
  match env.agents[i]? with
  | none => env
  | some a =>
    if !a.alive then env else
    match d a.id with
    | none => env
    | some (act, params) =>
      let current_room := env.rooms a.location
      match act, params with
      | Action.EAT, _ =>
        let eaten := min (3/10 : ℚ) current_room.food
        { env with
          rooms := updRoom env.rooms a.location
            (fun r => { r with food := r.food - eaten }),
          agents := env.agents.set i
            { a with hunger := max 0 (a.hunger - eaten) } }
      | Action.MOVE, some p =>
        if p ∈ current_room.connectedRooms then
          if ((env.rooms p).agents.length : ℤ) < (env.rooms p).capacity then
            { env with agents := env.agents.set i { a with location := p } }
          else env
        else env
      | Action.MOVE, none => env
      | Action.TALK, some p =>
        { env with agents := env.agents.set i (talkUpdate a p) }
      | Action.TALK, none => env

/-- The full resolution loop (Phase B): iterate the agents in list
(construction) order. -/
def resolvePhase (d : ℤ → Option Decision) (env : Env) : Env :=
  (List.range env.agents.length).foldl (resolveOne d) env

/-- `Environment._update_room_agents`: clear every room's occupancy
list, then append each living agent's id to its current room's list,
in agent order. -/
def updateRoomAgents (env : Env) : Env :=
  { env with
    rooms := fun i =>
      if i ∈ env.roomIds then
        { env.rooms i with
          agents := (env.agents.filter
            (fun a => a.alive && a.location == i)).map (fun a => a.id) }
      else env.rooms i }

/-- Food regeneration loop of `Environment.step` (lines 67–68). -/
def regenFood (env : Env) : Env :=
  { env with
    rooms := fun i =>
      if i ∈ env.roomIds then
        { env.rooms i with food := min 1 ((env.rooms i).food + 1/20) }
      else env.rooms i }

/-- Hunger-increase loop of `Environment.step` (lines 70–81).  The
occupancy ratio divides by `capacity` in ℚ (Python would raise
`ZeroDivisionError` for a capacity-0 room holding a living agent). -/
def hungerPhase (env : Env) : Env :=
  { env with
    agents := env.agents.map (fun a =>
      if a.alive then
        let current_room := env.rooms a.location
        let occupancy_ratio : ℚ :=
          (current_room.agents.length : ℚ) / (current_room.capacity : ℚ)
        let hunger_increase : ℚ :=
          if occupancy_ratio > 3/4 then
            1/20 + (occupancy_ratio - 3/4) * (1/10)
          else 1/20
        { a with hunger := min 1 (a.hunger + hunger_increase) }
      else a) }

/-- Phase A of `Environment.step` (lines 30–38): collect one decision
per living agent, keyed by agent id, in agent order, from the
unmutated pre-step state.  `rng` supplies the random draw used by each
agent's single `random.choice`. -/
def phaseA (env : Env) (rng : ℤ → Nat) : List (ℤ × Decision) :=
  env.agents.filterMap (fun a =>
    if a.alive then
      some (a.id, a.decide (env.rooms a.location) (rng a.id))
    else none)

/-- Dict lookup into the `action_decisions` mapping (agent ids are
unique in any validated configuration, so first-match lookup agrees
with the Python dict). -/
def lookupDec (l : List (ℤ × Decision)) (idv : ℤ) : Option Decision :=
  (l.find? (fun p => p.1 == idv)).map (fun p => p.2)

/-- `Environment.step`: Phase A (decide), Phase B (resolve), then
occupancy recomputation, food regeneration and hunger increase; returns
the mutated environment together with the returned `action_decisions`. -/
def stepFn (env : Env) (rng : ℤ → Nat) : Env × List (ℤ × Decision) :=
  let action_decisions := phaseA env rng
  let env1 := resolvePhase (lookupDec action_decisions) env
  let env2 := updateRoomAgents env1
  let env3 := regenFood env2
  let env4 := hungerPhase env3
  (env4, action_decisions)

/-! ## Configuration (`core/config.py`) -/

/-- `SimulationConfig`. -/
structure SimulationConfig where
  steps : ℤ
  seed : Option ℤ

/-- `EnvironmentConfig`. -/
structure EnvironmentConfig where
  food_regen_rate : ℚ
  hunger_increase_rate : ℚ
  eat_amount : ℚ
  trust_increase : ℚ

/-- `RoomConfig`. -/
structure RoomConfig where
  id : ℤ
  capacity : ℤ
  connected_to : List ℤ
  initial_food : ℚ

/-- `AgentConfig`. -/
structure AgentConfig where
  id : ℤ
  location : ℤ
  initial_hunger : ℚ

/-- `Config`. -/
structure Config where
  simulation : SimulationConfig
  environment : EnvironmentConfig
  rooms : List RoomConfig
  agents : List AgentConfig

/-- `validate_config` from `core/config.py` (lines 120–163): the error
list is built in source order.  `len(ids) != len(set(ids))` (a
duplicate exists) is modelled by `¬ ids.Nodup`, and `x not in ids` by
`!ids.contains x`. -/
def validate_config (config : Config) : List String :=
  let room_ids := config.rooms.map (fun r => r.id)
  let e1 : List String :=
    if ¬ room_ids.Nodup then
      ["Room IDs must be unique"] else []
  let e2 : List String :=
    (config.rooms.map (fun r =>
      (r.connected_to.filter (fun cid => !room_ids.contains cid)).map
        (fun cid => "Room " ++ toString r.id ++
          " connects to non-existent room " ++ toString cid))).flatten
  let agent_ids := config.agents.map (fun a => a.id)
  let e3 : List String :=
    if ¬ agent_ids.Nodup then
      ["Agent IDs must be unique"] else []
  let e4 : List String :=
    (config.agents.filter (fun a => !room_ids.contains a.location)).map
      (fun a => "Agent " ++ toString a.id ++
        " starts in non-existent room " ++ toString a.location)
  let e5 : List String :=
    if config.environment.food_regen_rate < 0 then
      ["Food regeneration rate must be non-negative"] else []
  let e6 : List String :=
    if config.environment.hunger_increase_rate < 0 then
      ["Hunger increase rate must be non-negative"] else []
  let e7 : List String :=
    if config.environment.eat_amount ≤ 0 then
      ["Eat amount must be positive"] else []
  let e8 : List String :=
    if config.simulation.steps ≤ 0 then
      ["Number of simulation steps must be positive"] else []
  e1 ++ e2 ++ e3 ++ e4 ++ e5 ++ e6 ++ e7 ++ e8

/-- Room construction in `main.py`: `Room(id, capacity, connectedRooms, food)`
with an empty occupancy list. -/
def roomFromConfig (rc : RoomConfig) : Room :=
  { id := rc.id, capacity := rc.capacity, food := rc.initial_food,
    agents := [], connectedRooms := rc.connected_to }

/-- Agent construction in `main.py`: `Agent(id, location, hunger)`;
`alive` defaults to `True` and `trust` to the empty dict. -/
def agentFromConfig (ac : AgentConfig) : Agent :=
  { id := ac.id, location := ac.location, hunger := ac.initial_hunger,
    alive := true, trust := fun _ => 0 }

/-- A fallback room for ids absent from the rooms dict (Python would
raise `KeyError`; the claims only evaluate the dict at existing keys). -/
def defaultRoom : Room :=
  { id := 0, capacity := 1, food := 1, agents := [], connectedRooms := [] }

/-- Environment construction as `main.py` performs it: build the rooms
dict and the agents list from the configuration, then
`Environment.__init__` runs `_update_room_agents`.  Only
`config.rooms`, `config.agents` reach the engine (the
`EnvironmentConfig` parameters are never read). -/
def initFromConfig (config : Config) : Env :=
  updateRoomAgents
    { roomIds := config.rooms.map (fun r => r.id),
      rooms := fun i =>
        ((config.rooms.find? (fun r => r.id == i)).map roomFromConfig).getD
          defaultRoom,
      agents := config.agents.map agentFromConfig }

/-- Run `n` steps from a configuration; `rng n` supplies the draws of
step `n`. -/
def runN (config : Config) (rng : Nat → ℤ → Nat) : Nat → Env
  | 0 => initFromConfig config
  | n + 1 => (stepFn (runN config rng n) (rng n)).1

/-- The action mapping returned by step `n` of a run. -/
def runTrace (config : Config) (rng : Nat → ℤ → Nat) (n : Nat) :
    List (ℤ × Decision) :=
  (stepFn (runN config rng n) (rng n)).2

/-! ## Helper lemmas -/

/-- A `random.choice` result is a member of the (non-empty) list. -/
lemma choice_mem (l : List ℤ) (k : Nat) (h : l ≠ []) : choice l k ∈ l := by
  have hl : 0 < l.length := List.length_pos.mpr h
  have hk : k % l.length < l.length := Nat.mod_lt _ hl
  rw [choice, List.getD_eq_getElem _ _ hk]
  exact List.getElem_mem hk

/-- Half-even rounding never undershoots the floor. -/
lemma roundHalfEven_ge_floor (q : ℚ) : (⌊q⌋ : ℤ) ≤ roundHalfEven q := by
  unfold roundHalfEven
  dsimp only
  split
  · exact le_refl _
  · split
    · exact Int.le.intro 1 rfl
    · split
      · exact le_refl _
      · exact Int.le.intro 1 rfl

/-- Rounding to two decimals loses at most `1/100`. -/
lemma round2_ge (q : ℚ) : q - 1/100 ≤ round2 q := by
  have h1 : (q * 100 : ℚ) - 1 ≤ (⌊q * 100⌋ : ℚ) := by
    have := Int.sub_one_lt_floor (q * 100)
    linarith
  have h2 : (⌊q * 100⌋ : ℚ) ≤ (roundHalfEven (q * 100) : ℚ) := by
    exact_mod_cast roundHalfEven_ge_floor (q * 100)
  rw [round2, le_div_iff₀ (by norm_num : (0:ℚ) < 100)]
  linarith

/-- The trust update of a resolved TALK: never decreasing (from a value
`≤ 1`), never negative (from a non-negative value), never above 1. -/
lemma trust_update_bounds (t : ℚ) :
    (t ≤ 1 → t ≤ min 1 (round2 (t + 1/20))) ∧
    (0 ≤ t → 0 ≤ min 1 (round2 (t + 1/20))) ∧
    min 1 (round2 (t + 1/20)) ≤ 1 := by
  have hr := round2_ge (t + 1/20)
  refine ⟨fun h1 => le_min h1 (by linarith), fun h0 => le_min (by norm_num) (by linarith),
    min_le_left _ _⟩

/-- Resolved effect of one recorded EAT: the acting agent's room loses
`min(0.3, food-at-resolution-time)` and the agent's hunger drops by the
same amount, floored at 0. -/
lemma resolveOne_eat (d : ℤ → Option Decision) (env : Env) (i : Nat) (a : Agent)
    (prm : Option ℤ) (ha : env.agents[i]? = some a) (hal : a.alive = true)
    (hd : d a.id = some (Action.EAT, prm)) :
    resolveOne d env i =
      { env with
        rooms := updRoom env.rooms a.location
          (fun r => { r with food := r.food - min (3/10) ((env.rooms a.location).food) }),
        agents := env.agents.set i
          { a with hunger := max 0 (a.hunger - min (3/10) ((env.rooms a.location).food)) } } := by
  simp only [resolveOne, ha, hal, Bool.not_true, Bool.false_eq_true, if_false, hd]

/-- Amount the first-resolved of two EATers in a room consumes. -/
def firstBite (env : Env) (a : Agent) : ℚ :=
  min (3/10) ((env.rooms a.location).food)

/-- Amount the second-resolved EATer consumes: capped by what the first
one left. -/
def secondBite (env : Env) (a : Agent) : ℚ :=
  min (3/10) ((env.rooms a.location).food - firstBite env a)

/-- Keys of the Phase A mapping are exactly the living agents' ids. -/
lemma filterMap_alive_keys (l : List Agent) (g : Agent → Decision) :
    (l.filterMap (fun a => if a.alive then some (a.id, g a) else none)).map Prod.fst
      = (l.filter (fun a => a.alive)).map (fun a => a.id) := by
  induction l with
  | nil => rfl
  | cons h t ih => cases hh : h.alive <;> simp [hh, ih, List.filterMap_cons]

/-- Unfolding step for the decision-dict lookup. -/
lemma lookupDec_cons (p : ℤ × Decision) (rest : List (ℤ × Decision)) (key : ℤ) :
    lookupDec (p :: rest) key = if p.1 = key then some p.2 else lookupDec rest key := by
  by_cases h : p.1 = key
  · simp [lookupDec, List.find?_cons_of_pos, h]
  · simp [lookupDec, List.find?_cons_of_neg, h]

/-- With distinct agent ids, the Phase A entry of a living agent is its
own decision. -/
lemma lookupDec_filterMap (l : List Agent) (g : Agent → Decision) (a : Agent)
    (hnd : (l.map (fun x => x.id)).Nodup) (hmem : a ∈ l) (hal : a.alive = true) :
    lookupDec (l.filterMap (fun x => if x.alive then some (x.id, g x) else none)) a.id
      = some (g a) := by
  induction l with
  | nil => cases hmem
  | cons h t ih =>
    simp only [List.map_cons, List.nodup_cons] at hnd
    obtain ⟨hh, ht⟩ := hnd
    rcases List.mem_cons.mp hmem with rfl | hmem'
    · simp [List.filterMap_cons, hal, lookupDec_cons]
    · have hne : h.id ≠ a.id := by
        intro he
        exact hh (he ▸ List.mem_map_of_mem (fun x => x.id) hmem')
      cases hhal : h.alive
      · simp only [List.filterMap_cons, hhal, Bool.false_eq_true, if_false]
        exact ih ht hmem'
      · simp only [List.filterMap_cons, hhal, if_true]
        rw [lookupDec_cons, if_neg hne]
        exact ih ht hmem'

/-! ## Numeric-bounds invariant (C5) -/

/-- Bounds invariant for rooms: food within [0, 1]. -/
def FoodOK (env : Env) : Prop :=
  ∀ i : ℤ, 0 ≤ (env.rooms i).food ∧ (env.rooms i).food ≤ 1

/-- Bounds invariant for agents: hunger within [0, 1]. -/
def HungerOK (env : Env) : Prop :=
  ∀ a ∈ env.agents, 0 ≤ a.hunger ∧ a.hunger ≤ 1

/-- Bounds invariant for trust: every stored value within [0, 1]. -/
def TrustOK (env : Env) : Prop :=
  ∀ a ∈ env.agents, ∀ b : ℤ, 0 ≤ a.trust b ∧ a.trust b ≤ 1

/-- Joint numeric-bounds invariant of the engine state. -/
def BoundsOK (env : Env) : Prop := FoodOK env ∧ HungerOK env ∧ TrustOK env

/-- Resolving one recorded decision preserves all numeric bounds. -/
lemma resolveOne_bounds (d : ℤ → Option Decision) (env : Env) (k : Nat)
    (h : BoundsOK env) : BoundsOK (resolveOne d env k) := by
  obtain ⟨hf, hh, ht⟩ := h
  cases hga : env.agents[k]? with
  | none => simpa [resolveOne, hga] using ⟨hf, hh, ht⟩
  | some a =>
    have hamem : a ∈ env.agents := List.getElem?_mem hga
    cases hal : a.alive with
    | false => simpa [resolveOne, hga, hal] using ⟨hf, hh, ht⟩
    | true =>
      cases hd : d a.id with
      | none => simpa [resolveOne, hga, hal, hd] using ⟨hf, hh, ht⟩
      | some dec =>
        obtain ⟨act, prm⟩ := dec
        cases act with
        | EAT =>
          simp only [resolveOne, hga, hal, Bool.not_true, Bool.false_eq_true,
            if_false, hd]
          obtain ⟨hf0, hf1⟩ := hf a.location
          have he0 : (0:ℚ) ≤ min (3/10) ((env.rooms a.location).food) :=
            le_min (by norm_num) hf0
          have he1 : min (3/10) ((env.rooms a.location).food) ≤
              (env.rooms a.location).food := min_le_right _ _
          refine ⟨?_, ?_, ?_⟩
          · intro j
            by_cases hj : j = a.location
            · subst hj
              simp only [updRoom, Function.update_same]
              exact ⟨by linarith, by linarith⟩
            · simp only [updRoom, Function.update_noteq hj]
              exact hf j
          · intro x hx
            rcases List.mem_or_eq_of_mem_set hx with hx' | rfl
            · exact hh x hx'
            · obtain ⟨ha0, ha1⟩ := hh a hamem
              exact ⟨le_max_left _ _, max_le (by norm_num) (by linarith)⟩
          · intro x hx
            rcases List.mem_or_eq_of_mem_set hx with hx' | rfl
            · exact ht x hx'
            · exact ht a hamem
        | MOVE =>
          cases prm with
          | none => simpa [resolveOne, hga, hal, hd] using ⟨hf, hh, ht⟩
          | some p =>
            simp only [resolveOne, hga, hal, Bool.not_true, Bool.false_eq_true,
              if_false, hd]
            split_ifs with h1 h2
            · refine ⟨hf, ?_, ?_⟩
              · intro x hx
                rcases List.mem_or_eq_of_mem_set hx with hx' | rfl
                · exact hh x hx'
                · exact hh a hamem
              · intro x hx
                rcases List.mem_or_eq_of_mem_set hx with hx' | rfl
                · exact ht x hx'
                · exact ht a hamem
            · exact ⟨hf, hh, ht⟩
            · exact ⟨hf, hh, ht⟩
        | TALK =>
          cases prm with
          | none => simpa [resolveOne, hga, hal, hd] using ⟨hf, hh, ht⟩
          | some p =>
            simp only [resolveOne, hga, hal, Bool.not_true, Bool.false_eq_true,
              if_false, hd]
            refine ⟨hf, ?_, ?_⟩
            · intro x hx
              rcases List.mem_or_eq_of_mem_set hx with hx' | rfl
              · exact hh x hx'
              · exact hh a hamem
            · intro x hx
              rcases List.mem_or_eq_of_mem_set hx with hx' | rfl
              · exact ht x hx'
              · intro b
                obtain ⟨ht0, ht1⟩ := ht a hamem p
                obtain ⟨-, hu0, hu1⟩ := trust_update_bounds (a.trust p)
                simp only [talkUpdate]
                by_cases hb : b = p
                · subst hb
                  rw [Function.update_same]
                  exact ⟨hu0 ht0, hu1⟩
                · rw [Function.update_noteq hb]
                  exact ht a hamem b

/-- Phase B preserves all numeric bounds. -/
lemma resolvePhase_bounds (d : ℤ → Option Decision) (env : Env)
    (h : BoundsOK env) : BoundsOK (resolvePhase d env) := by
  rw [resolvePhase]
  generalize List.range env.agents.length = l
  induction l generalizing env with
  | nil => exact h
  | cons x xs ih => exact ih _ (resolveOne_bounds d env x h)

/-- Occupancy recomputation preserves all numeric bounds. -/
lemma updateRoomAgents_bounds (env : Env) (h : BoundsOK env) :
    BoundsOK (updateRoomAgents env) := by
  obtain ⟨hf, hh, ht⟩ := h
  refine ⟨fun j => ?_, hh, ht⟩
  simp only [updateRoomAgents]
  by_cases hj : j ∈ env.roomIds <;> simp [hj, hf j]

/-- Food regeneration preserves all numeric bounds. -/
lemma regenFood_bounds (env : Env) (h : BoundsOK env) :
    BoundsOK (regenFood env) := by
  obtain ⟨hf, hh, ht⟩ := h
  refine ⟨fun j => ?_, hh, ht⟩
  simp only [regenFood]
  by_cases hj : j ∈ env.roomIds
  · obtain ⟨h0, h1⟩ := hf j
    simp only [hj, if_true]
    exact ⟨le_min (by norm_num) (by linarith), min_le_left _ _⟩
  · simp only [hj, if_false]
    exact hf j

/-- Hunger accrual preserves all numeric bounds. -/
lemma hungerPhase_bounds (env : Env) (h : BoundsOK env) :
    BoundsOK (hungerPhase env) := by
  obtain ⟨hf, hh, ht⟩ := h
  refine ⟨hf, ?_, ?_⟩
  · intro x hx
    simp only [hungerPhase, List.mem_map] at hx
    obtain ⟨a, hmem, rfl⟩ := hx
    obtain ⟨h0, h1⟩ := hh a hmem
    cases hal : a.alive with
    | false => simpa [hal] using ⟨h0, h1⟩
    | true =>
      simp only [hal, if_true]
      constructor
      · refine le_min (by norm_num) ?_
        have : (0:ℚ) ≤
            (if ((env.rooms a.location).agents.length : ℚ) /
                ((env.rooms a.location).capacity : ℚ) > 3/4 then
              1/20 + (((env.rooms a.location).agents.length : ℚ) /
                ((env.rooms a.location).capacity : ℚ) - 3/4) * (1/10)
            else 1/20) := by
          split_ifs with hr
          · nlinarith
          · norm_num
        linarith
      · exact min_le_left _ _
  · intro x hx
    simp only [hungerPhase, List.mem_map] at hx
    obtain ⟨a, hmem, rfl⟩ := hx
    cases hal : a.alive with
    | false => simpa [hal] using ht a hmem
    | true => simpa [hal] using ht a hmem

/-- One whole step preserves all numeric bounds. -/
lemma stepFn_bounds (env : Env) (rng : ℤ → Nat) (h : BoundsOK env) :
    BoundsOK (stepFn env rng).1 :=
  hungerPhase_bounds _ (regenFood_bounds _ (updateRoomAgents_bounds _
    (resolvePhase_bounds _ _ h)))

/-- A configuration with in-range initial food and hunger yields an
initial environment satisfying all numeric bounds (trust starts empty). -/
lemma init_bounds (cfg : Config)
    (hfc : ∀ rc ∈ cfg.rooms, 0 ≤ rc.initial_food ∧ rc.initial_food ≤ 1)
    (hhc : ∀ ac ∈ cfg.agents, 0 ≤ ac.initial_hunger ∧ ac.initial_hunger ≤ 1) :
    BoundsOK (initFromConfig cfg) := by
  rw [initFromConfig]
  apply updateRoomAgents_bounds
  refine ⟨?_, ?_, ?_⟩
  · intro j
    cases hfind : cfg.rooms.find? (fun r => r.id == j) with
    | none => simp [hfind, defaultRoom]
    | some rc =>
      have := List.mem_of_find?_eq_some hfind
      simp only [hfind, Option.map_some, Option.getD_some, roomFromConfig]
      exact hfc rc this
  · intro x hx
    simp only [List.mem_map] at hx
    obtain ⟨ac, hmem, rfl⟩ := hx
    simpa [agentFromConfig] using hhc ac hmem
  · intro x hx
    simp only [List.mem_map] at hx
    obtain ⟨ac, hmem, rfl⟩ := hx
    simp [agentFromConfig]

/-! ## Trust monotonicity machinery (C7) -/

/-- The trust value held by the agent at list position `i` toward `b`
(0 when the position is out of range, mirroring `dict.get(.., 0.0)`). -/
def trustIdx (env : Env) (i : Nat) (b : ℤ) : ℚ :=
  ((env.agents[i]?).map (fun x => x.trust b)).getD 0

/-- Every trust value is at most 1. -/
def TrustLe1 (env : Env) : Prop := ∀ i b, trustIdx env i b ≤ 1

lemma optTrust_set (l : List Agent) (k : Nat) (v a : Agent)
    (hga : l[k]? = some a) (i : Nat) (b : ℤ) :
    (((l.set k v)[i]?).map (fun x => x.trust b)).getD 0
      = if i = k then v.trust b
        else ((l[i]?).map (fun x => x.trust b)).getD 0 := by
  have hk : k < l.length := (List.getElem?_eq_some_iff.mp hga).1
  by_cases hik : i = k
  · subst hik
    simp [List.getElem?_set_self hk]
  · rw [List.getElem?_set_ne (Ne.symm hik)]
    simp [hik]

lemma trustIdx_of_agents_set (env : Env) (R : ℤ → Room) (k : Nat) (v a : Agent)
    (hga : env.agents[k]? = some a) (i : Nat) (b : ℤ) :
    trustIdx { env with rooms := R, agents := env.agents.set k v } i b
      = if i = k then v.trust b else trustIdx env i b := by
  simp only [trustIdx]
  exact optTrust_set env.agents k v a hga i b

lemma trustIdx_some (env : Env) (k : Nat) (a : Agent)
    (hga : env.agents[k]? = some a) (b : ℤ) :
    trustIdx env k b = a.trust b := by
  simp [trustIdx, hga]

lemma resolveOne_trust (d : ℤ → Option Decision) (env : Env) (k : Nat)
    (h1 : TrustLe1 env) (i : Nat) (b : ℤ) :
    trustIdx env i b ≤ trustIdx (resolveOne d env k) i b ∧
    trustIdx (resolveOne d env k) i b ≤ 1 := by
  cases hga : env.agents[k]? with
  | none =>
    have hred : resolveOne d env k = env := by simp [resolveOne, hga]
    rw [hred]
    exact ⟨le_refl _, h1 i b⟩
  | some a =>
    cases hal : a.alive with
    | false =>
      have hred : resolveOne d env k = env := by simp [resolveOne, hga, hal]
      rw [hred]
      exact ⟨le_refl _, h1 i b⟩
    | true =>
      cases hd : d a.id with
      | none =>
        have hred : resolveOne d env k = env := by simp [resolveOne, hga, hal, hd]
        rw [hred]
        exact ⟨le_refl _, h1 i b⟩
      | some dec =>
        obtain ⟨act, prm⟩ := dec
        cases act with
        | EAT =>
          have hred := resolveOne_eat d env k a prm hga hal hd
          rw [hred, trustIdx_of_agents_set env _ k _ a hga]
          by_cases hik : i = k
          · subst hik
            rw [if_pos rfl, trustIdx_some env i a hga]
            exact ⟨le_refl _, by rw [← trustIdx_some env i a hga]; exact h1 i b⟩
          · rw [if_neg hik]
            exact ⟨le_refl _, h1 i b⟩
        | MOVE =>
          cases prm with
          | none =>
            have hred : resolveOne d env k = env := by
              simp [resolveOne, hga, hal, hd]
            rw [hred]
            exact ⟨le_refl _, h1 i b⟩
          | some p =>
            by_cases hmem : p ∈ (env.rooms a.location).connectedRooms
            · by_cases hcap :
                  ((env.rooms p).agents.length : ℤ) < (env.rooms p).capacity
              · have hred : resolveOne d env k =
                    { env with agents := env.agents.set k { a with location := p } } := by
                  simp only [resolveOne, hga, hal, Bool.not_true, Bool.false_eq_true,
                    if_false, hd]
                  rw [if_pos hmem, if_pos hcap]
                rw [hred, trustIdx_of_agents_set env _ k _ a hga]
                by_cases hik : i = k
                · subst hik
                  rw [if_pos rfl, trustIdx_some env i a hga]
                  exact ⟨le_refl _, by rw [← trustIdx_some env i a hga]; exact h1 i b⟩
                · rw [if_neg hik]
                  exact ⟨le_refl _, h1 i b⟩
              · have hred : resolveOne d env k = env := by
                  simp only [resolveOne, hga, hal, Bool.not_true, Bool.false_eq_true,
                    if_false, hd]
                  rw [if_pos hmem, if_neg hcap]
                rw [hred]
                exact ⟨le_refl _, h1 i b⟩
            · have hred : resolveOne d env k = env := by
                simp only [resolveOne, hga, hal, Bool.not_true, Bool.false_eq_true,
                  if_false, hd]
                rw [if_neg hmem]
              rw [hred]
              exact ⟨le_refl _, h1 i b⟩
        | TALK =>
          cases prm with
          | none =>
            have hred : resolveOne d env k = env := by
              simp [resolveOne, hga, hal, hd]
            rw [hred]
            exact ⟨le_refl _, h1 i b⟩
          | some p =>
            have hred : resolveOne d env k =
                { env with agents := env.agents.set k (talkUpdate a p) } := by
              simp only [resolveOne, hga, hal, Bool.not_true, Bool.false_eq_true,
                if_false, hd]
            rw [hred, trustIdx_of_agents_set env _ k _ a hga]
            by_cases hik : i = k
            · subst hik
              rw [if_pos rfl]
              have htp : trustIdx env i p = a.trust p := trustIdx_some env i a hga p
              obtain ⟨hm, -, hle⟩ := trust_update_bounds (a.trust p)
              by_cases hb : b = p
              · subst hb
                simp only [talkUpdate, Function.update_same]
                refine ⟨?_, hle⟩
                rw [trustIdx_some env i a hga]
                exact hm (by rw [← trustIdx_some env i a hga]; exact h1 i b)
              · simp only [talkUpdate, Function.update_noteq hb]
                rw [trustIdx_some env i a hga]
                exact ⟨le_refl _, by rw [← trustIdx_some env i a hga]; exact h1 i b⟩
            · rw [if_neg hik]
              exact ⟨le_refl _, h1 i b⟩

lemma foldl_resolve_trust (d : ℤ → Option Decision) (l : List Nat) (env : Env)
    (h1 : TrustLe1 env) :
    TrustLe1 (l.foldl (resolveOne d) env) ∧
    ∀ i b, trustIdx env i b ≤ trustIdx (l.foldl (resolveOne d) env) i b := by
  induction l generalizing env with
  | nil => exact ⟨h1, fun i b => le_refl _⟩
  | cons x xs ih =>
    have hx1 : TrustLe1 (resolveOne d env x) :=
      fun i b => (resolveOne_trust d env x h1 i b).2
    obtain ⟨ha, hb⟩ := ih (resolveOne d env x) hx1
    exact ⟨ha, fun i b =>
      le_trans (resolveOne_trust d env x h1 i b).1 (hb i b)⟩

lemma hungerPhase_trustIdx (env : Env) (i : Nat) (b : ℤ) :
    trustIdx (hungerPhase env) i b = trustIdx env i b := by
  simp only [trustIdx, hungerPhase, List.getElem?_map]
  cases hga : env.agents[i]? with
  | none => rfl
  | some a => cases hal : a.alive <;> simp [hal]

lemma stepFn_trustIdx (env : Env) (rng : ℤ → Nat) (i : Nat) (b : ℤ) :
    trustIdx (stepFn env rng).1 i b =
      trustIdx (resolvePhase (lookupDec (phaseA env rng)) env) i b := by
  have : (stepFn env rng).1 =
      hungerPhase (regenFood (updateRoomAgents
        (resolvePhase (lookupDec (phaseA env rng)) env))) := rfl
  rw [this, hungerPhase_trustIdx]
  rfl

lemma stepFn_trust (env : Env) (rng : ℤ → Nat) (h1 : TrustLe1 env) :
    TrustLe1 (stepFn env rng).1 ∧
    ∀ i b, trustIdx env i b ≤ trustIdx (stepFn env rng).1 i b := by
  obtain ⟨ha, hb⟩ :=
    foldl_resolve_trust (lookupDec (phaseA env rng))
      (List.range env.agents.length) env h1
  constructor
  · intro i b
    rw [stepFn_trustIdx]
    exact ha i b
  · intro i b
    rw [stepFn_trustIdx]
    exact hb i b

lemma init_trustIdx (cfg : Config) (i : Nat) (b : ℤ) :
    trustIdx (initFromConfig cfg) i b = 0 := by
  have : trustIdx (initFromConfig cfg) i b =
      (((cfg.agents.map agentFromConfig)[i]?).map (fun x => x.trust b)).getD 0 := rfl
  rw [this, List.getElem?_map]
  cases hga : cfg.agents[i]? with
  | none => rfl
  | some ac => simp [agentFromConfig]

lemma runN_trustLe1 (cfg : Config) (rng : Nat → ℤ → Nat) (n : Nat) :
    TrustLe1 (runN cfg rng n) := by
  induction n with
  | zero => intro i b; rw [runN, init_trustIdx]; norm_num
  | succ n ih => exact (stepFn_trust _ _ ih).1

lemma resolveOne_talk_trustIdx (d : ℤ → Option Decision) (env : Env) (k : Nat)
    (a : Agent) (p : ℤ) (hga : env.agents[k]? = some a) (hal : a.alive = true)
    (hd : d a.id = some (Action.TALK, some p)) :
    trustIdx (resolveOne d env k) k p
      = min 1 (round2 (trustIdx env k p + 1/20)) := by
  have hred : resolveOne d env k =
      { env with agents := env.agents.set k (talkUpdate a p) } := by
    simp only [resolveOne, hga, hal, Bool.not_true, Bool.false_eq_true,
      if_false, hd]
  rw [hred, trustIdx_of_agents_set env _ k _ a hga, if_pos rfl,
    trustIdx_some env k a hga p]
  simp only [talkUpdate, Function.update_same]

lemma resolveOne_other_trustIdx (d : ℤ → Option Decision) (env : Env) (k : Nat)
    (i : Nat) (b : ℤ) (hik : i ≠ k) :
    trustIdx (resolveOne d env k) i b = trustIdx env i b := by
  cases hga : env.agents[k]? with
  | none =>
    have hred : resolveOne d env k = env := by simp [resolveOne, hga]
    rw [hred]
  | some a =>
    cases hal : a.alive with
    | false =>
      have hred : resolveOne d env k = env := by simp [resolveOne, hga, hal]
      rw [hred]
    | true =>
      cases hd : d a.id with
      | none =>
        have hred : resolveOne d env k = env := by simp [resolveOne, hga, hal, hd]
        rw [hred]
      | some dec =>
        obtain ⟨act, prm⟩ := dec
        cases act with
        | EAT =>
          rw [resolveOne_eat d env k a prm hga hal hd,
            trustIdx_of_agents_set env _ k _ a hga, if_neg hik]
        | MOVE =>
          cases prm with
          | none =>
            have hred : resolveOne d env k = env := by
              simp [resolveOne, hga, hal, hd]
            rw [hred]
          | some p =>
            by_cases hmem : p ∈ (env.rooms a.location).connectedRooms
            · by_cases hcap :
                  ((env.rooms p).agents.length : ℤ) < (env.rooms p).capacity
              · have hred : resolveOne d env k =
                    { env with agents := env.agents.set k { a with location := p } } := by
                  simp only [resolveOne, hga, hal, Bool.not_true,
                    Bool.false_eq_true, if_false, hd]
                  rw [if_pos hmem, if_pos hcap]
                rw [hred, trustIdx_of_agents_set env _ k _ a hga, if_neg hik]
              · have hred : resolveOne d env k = env := by
                  simp only [resolveOne, hga, hal, Bool.not_true,
                    Bool.false_eq_true, if_false, hd]
                  rw [if_pos hmem, if_neg hcap]
                rw [hred]
            · have hred : resolveOne d env k = env := by
                simp only [resolveOne, hga, hal, Bool.not_true,
                  Bool.false_eq_true, if_false, hd]
                rw [if_neg hmem]
              rw [hred]
        | TALK =>
          cases prm with
          | none =>
            have hred : resolveOne d env k = env := by
              simp [resolveOne, hga, hal, hd]
            rw [hred]
          | some p =>
            have hred : resolveOne d env k =
                { env with agents := env.agents.set k (talkUpdate a p) } := by
              simp only [resolveOne, hga, hal, Bool.not_true,
                Bool.false_eq_true, if_false, hd]
            rw [hred, trustIdx_of_agents_set env _ k _ a hga, if_neg hik]

lemma resolveOne_nontalk_trustIdx (d : ℤ → Option Decision) (env : Env) (k : Nat)
    (a : Agent) (b : ℤ) (act : Action) (prm : Option ℤ)
    (hga : env.agents[k]? = some a) (hd : d a.id = some (act, prm))
    (hnb : act = Action.TALK → ∀ p, prm = some p → p ≠ b) :
    trustIdx (resolveOne d env k) k b = trustIdx env k b := by
  cases hal : a.alive with
  | false =>
    have hred : resolveOne d env k = env := by simp [resolveOne, hga, hal]
    rw [hred]
  | true =>
    cases act with
    | EAT =>
      rw [resolveOne_eat d env k a prm hga hal hd,
        trustIdx_of_agents_set env _ k _ a hga, if_pos rfl,
        trustIdx_some env k a hga b]
    | MOVE =>
      cases prm with
      | none =>
        have hred : resolveOne d env k = env := by
          simp [resolveOne, hga, hal, hd]
        rw [hred]
      | some p =>
        by_cases hmem : p ∈ (env.rooms a.location).connectedRooms
        · by_cases hcap :
              ((env.rooms p).agents.length : ℤ) < (env.rooms p).capacity
          · have hred : resolveOne d env k =
                { env with agents := env.agents.set k { a with location := p } } := by
              simp only [resolveOne, hga, hal, Bool.not_true,
                Bool.false_eq_true, if_false, hd]
              rw [if_pos hmem, if_pos hcap]
            rw [hred, trustIdx_of_agents_set env _ k _ a hga, if_pos rfl,
              trustIdx_some env k a hga b]
          · have hred : resolveOne d env k = env := by
              simp only [resolveOne, hga, hal, Bool.not_true,
                Bool.false_eq_true, if_false, hd]
              rw [if_pos hmem, if_neg hcap]
            rw [hred]
        · have hred : resolveOne d env k = env := by
            simp only [resolveOne, hga, hal, Bool.not_true,
              Bool.false_eq_true, if_false, hd]
            rw [if_neg hmem]
          rw [hred]
    | TALK =>
      cases prm with
      | none =>
        have hred : resolveOne d env k = env := by
          simp [resolveOne, hga, hal, hd]
        rw [hred]
      | some p =>
        have hpb : p ≠ b := hnb rfl p rfl
        have hred : resolveOne d env k =
            { env with agents := env.agents.set k (talkUpdate a p) } := by
          simp only [resolveOne, hga, hal, Bool.not_true,
            Bool.false_eq_true, if_false, hd]
        rw [hred, trustIdx_of_agents_set env _ k _ a hga, if_pos rfl,
          trustIdx_some env k a hga b]
        simp only [talkUpdate]
        rw [Function.update_noteq (Ne.symm hpb)]

/-! ## Concrete states used by counterexamples and failing inputs -/

/-- Agent with hunger 0.7 in a room whose food level 0.15 lies strictly
between 0.1 and 0.2 (C3). -/
def aC3 : Agent :=
  { id := 0, location := 1, hunger := 7/10, alive := true, trust := fun _ => 0 }

/-- Room with food 0.15 and a connected room (C3). -/
def rC3 : Room :=
  { id := 1, capacity := 5, food := 3/20, agents := [0], connectedRooms := [5] }

/-- Agent with hunger 0.7 (C3 witness). -/
def aW3 : Agent :=
  { id := 2, location := 4, hunger := 7/10, alive := true, trust := fun _ => 0 }

/-- Room with food 0.05 (≤ 0.1) and a connected room (C3 witness). -/
def rW3 : Room :=
  { id := 4, capacity := 5, food := 1/20, agents := [2], connectedRooms := [3] }

/-- Room with food 0.15 and a connected room (C3 witness, EAT branch). -/
def rW3b : Room :=
  { id := 6, capacity := 5, food := 3/20, agents := [2], connectedRooms := [3] }

/-- Configuration with two agents (hunger 0.7) in room 0 and a
capacity-1 empty room 1, food 0.05 everywhere: both agents decide to
MOVE into room 1 in step 1 (C1/C2 failing input). -/
def cfgC2 : Config :=
  { simulation := { steps := 50, seed := none },
    environment := { food_regen_rate := 1/20, hunger_increase_rate := 1/20,
                     eat_amount := 3/10, trust_increase := 1/20 },
    rooms := [ { id := 0, capacity := 2, connected_to := [1], initial_food := 1/20 },
               { id := 1, capacity := 1, connected_to := [0], initial_food := 1/20 } ],
    agents := [ { id := 0, location := 0, initial_hunger := 7/10 },
                { id := 1, location := 0, initial_hunger := 7/10 } ] }

/-- Configuration containing a room of capacity 0 that is otherwise
fully valid (C4 failing input).  The engine's crowding computation
divides by this capacity, so a run of this configuration raises
`ZeroDivisionError` on its first step. -/
def cfgC4 : Config :=
  { simulation := { steps := 50, seed := none },
    environment := { food_regen_rate := 1/20, hunger_increase_rate := 1/20,
                     eat_amount := 3/10, trust_increase := 1/20 },
    rooms := [ { id := 0, capacity := 0, connected_to := [], initial_food := 1 } ],
    agents := [ { id := 0, location := 0, initial_hunger := 0 } ] }

/-- Environment for C1: agents 0 and 1 both in room 0, room 1 empty
with capacity 1 (exactly one free slot). -/
def envC1 : Env :=
  { roomIds := [0, 1],
    rooms := fun i =>
      if i = 1 then
        { id := 1, capacity := 1, food := 1, agents := [], connectedRooms := [0] }
      else
        { id := 0, capacity := 2, food := 1, agents := [0, 1], connectedRooms := [1] },
    agents := [ { id := 0, location := 0, hunger := 1/2, alive := true, trust := fun _ => 0 },
                { id := 1, location := 0, hunger := 1/2, alive := true, trust := fun _ => 0 } ] }

/-- Recorded decisions for C1: both agents MOVE to room 1. -/
def dC1 : ℤ → Option Decision := fun _ => some (Action.MOVE, some 1)

/-- Environment for C8: agent 0 in room 0, agent 1 in room 1. -/
def env8 : Env :=
  { roomIds := [0, 1],
    rooms := fun i =>
      if i = 1 then
        { id := 1, capacity := 2, food := 1, agents := [1], connectedRooms := [] }
      else
        { id := 0, capacity := 2, food := 1, agents := [0], connectedRooms := [] },
    agents := [ { id := 0, location := 0, hunger := 0, alive := true, trust := fun _ => 0 },
                { id := 1, location := 1, hunger := 0, alive := true, trust := fun _ => 0 } ] }

/-- Recorded decision for C8: agent 0 TALKs to agent 1, who is in a
different room. -/
def d8 : ℤ → Option Decision := fun i => if i = 0 then some (Action.TALK, some 1) else none

/-- Recorded decision for the C8 witness: agent 0 MOVEs to room 1,
which is not connected to room 0 in `env8`. -/
def dW8 : ℤ → Option Decision := fun i => if i = 0 then some (Action.MOVE, some 1) else none

/-! ## Claims -/

/-- C1.  Counter-evidence: in `envC1` the destination room 1 has
exactly one free slot and both living agents have recorded MOVE
decisions targeting it, yet resolving in agent order relocates BOTH
agents (the capacity test reads the stale pre-step occupancy list,
which is only recomputed after the resolution loop). -/
theorem C1_both_agents_enter_one_free_slot :
    (envC1.rooms 1).capacity - ((envC1.rooms 1).agents.length : ℤ) = 1 ∧
    (envC1.agents.getD 0 dummyAgent).location = 0 ∧
    (envC1.agents.getD 1 dummyAgent).location = 0 ∧
    ((resolvePhase dC1 envC1).agents.getD 0 dummyAgent).location = 1 ∧
    ((resolvePhase dC1 envC1).agents.getD 1 dummyAgent).location = 1 := by
  norm_num [resolvePhase, resolveOne, envC1, dC1, dummyAgent, List.range, List.range.loop]

set_option maxHeartbeats 2000000 in
/-- C2.  Counter-evidence: starting from the valid configuration
`cfgC2` (initial placements respect capacities), after one call to
`step` room 1 holds 2 occupants although its capacity is 1. -/
theorem C2_occupancy_exceeds_capacity :
    validate_config cfgC2 = [] ∧
    ((initFromConfig cfgC2).rooms 0).agents.length = 2 ∧
    ((initFromConfig cfgC2).rooms 0).capacity = 2 ∧
    ((initFromConfig cfgC2).rooms 1).agents.length = 0 ∧
    ((runN cfgC2 (fun _ _ => 0) 1).rooms 1).agents.length = 2 ∧
    ((runN cfgC2 (fun _ _ => 0) 1).rooms 1).capacity = 1 := by
  refine ⟨by norm_num [validate_config, cfgC2], ?_, ?_, ?_, ?_, ?_⟩ <;>
    norm_num [runN, stepFn, initFromConfig, phaseA, resolvePhase, resolveOne, lookupDec,
      updateRoomAgents, regenFood, hungerPhase, updRoom, Agent.decide, choice,
      agentFromConfig, roomFromConfig, cfgC2, Function.update,
      List.range, List.range.loop]

/-- C3 counterexample: `aC3` has hunger 0.7 > 0.6 in room `rC3` whose
food 0.15 is < 0.2 with a non-empty connected list, yet the decision
policy chooses EAT, not MOVE: the EAT rule (`hunger > 0.4 and
food > 0.1`) is the first one evaluated in `Agent.decide`. -/
theorem C3_eat_rule_fires_before_move_rule :
    aC3.hunger > 3/5 ∧ rC3.food < 1/5 ∧ rC3.connectedRooms ≠ [] ∧
    1/10 < rC3.food ∧
    aC3.decide rC3 0 = (Action.EAT, none) ∧
    (aC3.decide rC3 0).1 ≠ Action.MOVE := by
  have h : aC3.decide rC3 0 = (Action.EAT, none) := by
    norm_num [Agent.decide, aC3, rC3]
  exact ⟨by norm_num [aC3], by norm_num [rC3], by norm_num [rC3], by norm_num [rC3],
    h, by rw [h]; decide⟩

/-- C3 (amended).  With hunger > 0.6 and non-empty connected rooms, the
policy chooses a MOVE to a connected room only when food ≤ 0.1; when
food lies strictly between 0.1 and 0.2 the EAT rule, which
`Agent.decide` evaluates first, fires instead. -/
theorem C3_move_only_when_food_at_most_tenth (a : Agent) (r : Room) (k : Nat)
    (hh : a.hunger > 3/5) (hc : r.connectedRooms ≠ []) :
    (r.food ≤ 1/10 →
      (a.decide r k).1 = Action.MOVE ∧
      ∃ t, (a.decide r k).2 = some t ∧ t ∈ r.connectedRooms) ∧
    (1/10 < r.food → r.food < 1/5 → a.decide r k = (Action.EAT, none)) := by
  constructor
  · intro hf
    have h1 : ¬(a.hunger > 2/5 ∧ r.food > 1/10) := by
      rintro ⟨-, h⟩; linarith
    have h2 : a.hunger > 3/5 ∧ r.food < 1/5 ∧ r.connectedRooms ≠ [] :=
      ⟨hh, by linarith, hc⟩
    rw [Agent.decide, if_neg h1, if_pos h2]
    exact ⟨rfl, choice r.connectedRooms k, rfl, choice_mem _ _ hc⟩
  · intro hf1 hf2
    have h1 : a.hunger > 2/5 ∧ r.food > 1/10 := ⟨by linarith, hf1⟩
    rw [Agent.decide, if_pos h1]

/-- C3 witness: the amended theorem applied to concrete inputs on both
branches (food 0.05 yields a MOVE into the connected list; food 0.15
yields EAT). -/
theorem C3_move_only_when_food_at_most_tenth_witness :
    ((aW3.decide rW3 0).1 = Action.MOVE ∧
      ∃ t, (aW3.decide rW3 0).2 = some t ∧ t ∈ rW3.connectedRooms) ∧
    aW3.decide rW3b 0 = (Action.EAT, none) := by
  constructor
  · exact (C3_move_only_when_food_at_most_tenth aW3 rW3 0
      (by norm_num [aW3]) (by norm_num [rW3])).1 (by norm_num [rW3])
  · exact (C3_move_only_when_food_at_most_tenth aW3 rW3b 0
      (by norm_num [aW3]) (by norm_num [rW3b])).2 (by norm_num [rW3b]) (by norm_num [rW3b])

/-- C4.  Counter-evidence: `cfgC4` contains a room of capacity 0, yet
`validate_config` returns the empty error list — the function has no
capacity check at all (the engine later divides by the capacity when
computing the occupancy ratio, so this configuration crashes the first
step of the run that `main.py` then launches). -/
theorem C4_zero_capacity_passes_validation :
    validate_config cfgC4 = [] ∧ ∃ r ∈ cfgC4.rooms, r.capacity ≤ 0 := by
  refine ⟨by norm_num [validate_config, cfgC4], ?_⟩
  exact ⟨{ id := 0, capacity := 0, connected_to := [], initial_food := 1 },
    by norm_num [cfgC4], by norm_num⟩

/-- C8 counterexample: agent 0's recorded decision is a TALK targeting
agent 1, who is not present in agent 0's current room; resolving it is
NOT a no-op — agent 0's trust toward 1 changes from 0 to 0.05 (the
resolution loop performs no presence check for TALK targets). -/
theorem C8_absent_talk_target_mutates_trust :
    (env8.agents.getD 0 dummyAgent).location = 0 ∧
    (1 : ℤ) ∉ (env8.rooms 0).agents ∧
    d8 0 = some (Action.TALK, some 1) ∧
    (env8.agents.getD 0 dummyAgent).trust 1 = 0 ∧
    ((resolveOne d8 env8 0).agents.getD 0 dummyAgent).trust 1 = 1/20 := by
  norm_num [resolveOne, env8, d8, dummyAgent, talkUpdate, Function.update, round2,
    roundHalfEven]

/-- C8 (amended).  A recorded MOVE whose target is not in the acting
agent's current room's connected list is a silent no-op, but a recorded
TALK with any non-`none` target is applied unconditionally (the trust
update happens whether or not the target is present in the room);
neither aborts the step. -/
theorem C8_move_noop_talk_unconditional (env : Env) (d : ℤ → Option Decision)
    (i : Nat) (a : Agent) (ha : env.agents[i]? = some a) (hal : a.alive = true) :
    (∀ p, d a.id = some (Action.MOVE, some p) →
      p ∉ (env.rooms a.location).connectedRooms → resolveOne d env i = env) ∧
    (∀ p, d a.id = some (Action.TALK, some p) →
      resolveOne d env i = { env with agents := env.agents.set i (talkUpdate a p) }) := by
  constructor
  · intro p hp hmem
    simp only [resolveOne, ha, hal, Bool.not_true, Bool.false_eq_true, if_false, hp]
    rw [if_neg hmem]
  · intro p hp
    simp only [resolveOne, ha, hal, Bool.not_true, Bool.false_eq_true, if_false, hp]

/-- C8 witness: in `env8`, a MOVE by agent 0 to the non-connected room
1 resolves to the unchanged environment, and the TALK of `d8` resolves
to exactly the trust-updating state change. -/
theorem C8_move_noop_talk_unconditional_witness :
    resolveOne dW8 env8 0 = env8 ∧
    resolveOne d8 env8 0 =
      { env8 with agents := env8.agents.set 0 (talkUpdate (env8.agents.getD 0 dummyAgent) 1) } := by
  constructor
  · exact (C8_move_noop_talk_unconditional env8 dW8 0
      (env8.agents.getD 0 dummyAgent) rfl rfl).1 1 rfl (by norm_num [env8])
  · exact (C8_move_noop_talk_unconditional env8 d8 0
      (env8.agents.getD 0 dummyAgent) rfl rfl).2 1 rfl

/-- First EATer of the C6 witness: hunger 0.5, in room 0. -/
def aW6 : Agent := { id := 0, location := 0, hunger := 1/2, alive := true, trust := fun _ => 0 }

/-- Second EATer of the C6 witness: hunger 0.5, in room 0. -/
def bW6 : Agent := { id := 1, location := 0, hunger := 1/2, alive := true, trust := fun _ => 0 }

/-- Room of the C6 witness: food 0.4 (< combined bite size 0.6). -/
def roomW6 : Room := { id := 0, capacity := 4, food := 2/5, agents := [0, 1], connectedRooms := [] }

/-- Environment of the C6 witness. -/
def envW6 : Env := { roomIds := [0], rooms := fun _ => roomW6, agents := [aW6, bW6] }

/-- Recorded decisions of the C6 witness: everyone EATs. -/
def dW6 : ℤ → Option Decision := fun _ => some (Action.EAT, none)

/-- C6.  When the two agents of an environment both have recorded EAT
decisions and share a room, resolution charges the first agent
`min(0.3, f)` of the room's food `f` and the second
`min(0.3, f - firstBite)` — the food read at its own resolution time —
lowering each hunger by its own amount floored at 0; neither amount
exceeds the food available at that agent's resolution. -/
theorem C6_eat_is_min_bite_and_sequential (env : Env) (d : ℤ → Option Decision)
    (a b : Agent) (hag : env.agents = [a, b]) (haa : a.alive = true)
    (hba : b.alive = true) (hloc : b.location = a.location)
    (hda : d a.id = some (Action.EAT, none)) (hdb : d b.id = some (Action.EAT, none)) :
    ((resolvePhase d env).rooms a.location).food =
      (env.rooms a.location).food - firstBite env a - secondBite env a ∧
    ((resolvePhase d env).agents.getD 0 dummyAgent).hunger =
      max 0 (a.hunger - firstBite env a) ∧
    ((resolvePhase d env).agents.getD 1 dummyAgent).hunger =
      max 0 (b.hunger - secondBite env a) ∧
    firstBite env a ≤ (env.rooms a.location).food ∧
    secondBite env a ≤ (env.rooms a.location).food - firstBite env a := by
  obtain ⟨bid, bloc, bhun, bal, btr⟩ := b
  replace hloc : bloc = a.location := hloc
  subst hloc
  replace hba : bal = true := hba
  subst hba
  have ha0 : env.agents[0]? = some a := by rw [hag]; rfl
  have h0 := resolveOne_eat d env 0 a none ha0 haa hda
  have hfold : resolvePhase d env = resolveOne d (resolveOne d env 0) 1 := by
    rw [resolvePhase, hag]
    rfl
  have ha1 : (resolveOne d env 0).agents[1]? =
      some (Agent.mk bid a.location bhun true btr) := by
    rw [h0]; simp only [hag]; rfl
  have h1 := resolveOne_eat d (resolveOne d env 0) 1
    (Agent.mk bid a.location bhun true btr) none ha1 rfl hdb
  have hroom1 : (resolveOne d env 0).rooms a.location =
      { env.rooms a.location with
        food := (env.rooms a.location).food - firstBite env a } := by
    rw [h0]
    simp only [updRoom, Function.update_same, firstBite]
  refine ⟨?_, ?_, ?_, min_le_right _ _, min_le_right _ _⟩
  · rw [hfold, h1, hroom1, h0]
    simp [updRoom, Function.update_same, firstBite, secondBite]
  · rw [hfold, h1, h0]
    simp only [hag]
    simp [firstBite, List.set, List.getD]
  · rw [hfold, h1, hroom1, h0]
    simp only [hag]
    simp [firstBite, secondBite, List.set, List.getD]

/-- C6 witness: in `envW6` (food 0.4, both agents hunger 0.5) the first
agent eats 0.3, the second only the remaining 0.1; final food is 0 and
the hungers are 0.2 and 0.4. -/
theorem C6_eat_is_min_bite_and_sequential_witness :
    ((resolvePhase dW6 envW6).rooms 0).food = 0 ∧
    ((resolvePhase dW6 envW6).agents.getD 0 dummyAgent).hunger = 1/5 ∧
    ((resolvePhase dW6 envW6).agents.getD 1 dummyAgent).hunger = 2/5 := by
  obtain ⟨h1, h2, h3, -, -⟩ :=
    C6_eat_is_min_bite_and_sequential envW6 dW6 aW6 bW6 rfl rfl rfl rfl rfl rfl
  norm_num [aW6, bW6, envW6, roomW6, firstBite, secondBite] at h1 h2 h3
  exact ⟨h1, h2, h3⟩

/-- Room of the C9 witness. -/
def roomW9 : Room := { id := 0, capacity := 2, food := 1, agents := [0], connectedRooms := [0] }

/-- Agent of the C9 witness. -/
def agW9 : Agent := { id := 0, location := 0, hunger := 0, alive := true, trust := fun _ => 0 }

/-- Environment of the C9 witness. -/
def envW9 : Env := { roomIds := [0], rooms := fun _ => roomW9, agents := [agW9] }

/-- C9.  `step` returns exactly the Phase A mapping: its keys are the
ids of the agents alive at the start of the step, in agent order, and
(with the distinct ids every validated configuration has) the entry of
each living agent is its `decide` applied to the agent's room in the
unmutated pre-step state. -/
theorem C9_step_returns_presnapshot_decisions (env : Env) (rng : ℤ → Nat)
    (hnd : (env.agents.map (fun a => a.id)).Nodup) :
    (stepFn env rng).2 = phaseA env rng ∧
    (phaseA env rng).map Prod.fst
      = (env.agents.filter (fun a => a.alive)).map (fun a => a.id) ∧
    ∀ a ∈ env.agents, a.alive = true →
      lookupDec (phaseA env rng) a.id
        = some (a.decide (env.rooms a.location) (rng a.id)) := by
  exact ⟨rfl, filterMap_alive_keys _ _,
    fun a hmem hal => lookupDec_filterMap _ _ a hnd hmem hal⟩

/-- C9 witness: the theorem applied to the one-agent environment
`envW9` with the zero draw. -/
theorem C9_step_returns_presnapshot_decisions_witness :
    (stepFn envW9 (fun _ => 0)).2 = phaseA envW9 (fun _ => 0) ∧
    (phaseA envW9 (fun _ => 0)).map Prod.fst
      = (envW9.agents.filter (fun a => a.alive)).map (fun a => a.id) ∧
    lookupDec (phaseA envW9 (fun _ => 0)) agW9.id
      = some (agW9.decide (envW9.rooms agW9.location) 0) := by
  have h := C9_step_returns_presnapshot_decisions envW9 (fun _ => 0)
    (by simp [envW9, agW9])
  exact ⟨h.1, h.2.1, h.2.2 agW9 (by simp [envW9]) rfl⟩

/-- Configuration of the C5 witness. -/
def cfgW5 : Config :=
  { simulation := { steps := 10, seed := none },
    environment := { food_regen_rate := 1/20, hunger_increase_rate := 1/20,
                     eat_amount := 3/10, trust_increase := 1/20 },
    rooms := [ { id := 0, capacity := 2, connected_to := [0], initial_food := 1/2 } ],
    agents := [ { id := 0, location := 0, initial_hunger := 1/4 } ] }

/-- C5.  In a run from a configuration whose initial food and hunger
levels all lie in [0, 1], after every step every room's food, every
living agent's hunger, and every stored trust value lie in [0, 1]. -/
theorem C5_numeric_bounds_invariant (cfg : Config) (rng : Nat → ℤ → Nat)
    (hfc : ∀ rc ∈ cfg.rooms, 0 ≤ rc.initial_food ∧ rc.initial_food ≤ 1)
    (hhc : ∀ ac ∈ cfg.agents, 0 ≤ ac.initial_hunger ∧ ac.initial_hunger ≤ 1)
    (n : Nat) :
    (∀ i : ℤ, 0 ≤ ((runN cfg rng n).rooms i).food ∧
      ((runN cfg rng n).rooms i).food ≤ 1) ∧
    (∀ a ∈ (runN cfg rng n).agents, a.alive = true →
      0 ≤ a.hunger ∧ a.hunger ≤ 1) ∧
    (∀ a ∈ (runN cfg rng n).agents, ∀ b : ℤ,
      0 ≤ a.trust b ∧ a.trust b ≤ 1) := by
  have h : BoundsOK (runN cfg rng n) := by
    induction n with
    | zero => exact init_bounds cfg hfc hhc
    | succ n ih => exact stepFn_bounds _ _ ih
  exact ⟨h.1, fun a hm _ => h.2.1 a hm, h.2.2⟩

/-- C5 witness: the bounds after one step of the `cfgW5` run. -/
theorem C5_numeric_bounds_invariant_witness :
    (0 ≤ ((runN cfgW5 (fun _ _ => 0) 1).rooms 0).food ∧
      ((runN cfgW5 (fun _ _ => 0) 1).rooms 0).food ≤ 1) ∧
    (∀ a ∈ (runN cfgW5 (fun _ _ => 0) 1).agents, ∀ b : ℤ,
      0 ≤ a.trust b ∧ a.trust b ≤ 1) := by
  have h := C5_numeric_bounds_invariant cfgW5 (fun _ _ => 0)
    (by norm_num [cfgW5]) (by norm_num [cfgW5]) 1
  exact ⟨h.1 0, h.2.2⟩

/-- Room of the C7 witness. -/
def roomW7 : Room := { id := 0, capacity := 4, food := 1, agents := [0, 1], connectedRooms := [] }
/-- Talking agent of the C7 witness. -/
def agW7a : Agent := { id := 0, location := 0, hunger := 0, alive := true, trust := fun _ => 0 }
/-- Second agent of the C7 witness. -/
def agW7b : Agent := { id := 1, location := 0, hunger := 0, alive := true, trust := fun _ => 0 }
/-- Environment of the C7 witness. -/
def envW7 : Env := { roomIds := [0], rooms := fun _ => roomW7, agents := [agW7a, agW7b] }
/-- Recorded decisions of the C7 witness: agent 0 TALKs to agent 1,
everyone else EATs. -/
def dW7 : ℤ → Option Decision :=
  fun i => if i = 0 then some (Action.TALK, some 1) else some (Action.EAT, none)

/-- C7.  Trust is monotone and capped: along any run, every trust value
is non-decreasing from one step to the next and never exceeds 1; a
resolved TALK by the agent at position `k` targeting `p` sets that
trust to `min 1 (round2 (old + 0.05))`; and nothing else — another
agent's resolution, a non-TALK decision, a TALK at a different target,
the occupancy recomputation, the food regeneration, or the hunger
accrual — changes any trust value. -/
theorem C7_trust_monotone_capped_talk_only :
    (∀ (cfg : Config) (rng : Nat → ℤ → Nat) (n : Nat) (i : Nat) (b : ℤ),
      trustIdx (runN cfg rng n) i b ≤ trustIdx (runN cfg rng (n + 1)) i b) ∧
    (∀ (cfg : Config) (rng : Nat → ℤ → Nat) (n : Nat) (i : Nat) (b : ℤ),
      trustIdx (runN cfg rng n) i b ≤ 1) ∧
    (∀ (d : ℤ → Option Decision) (env : Env) (k : Nat) (a : Agent) (p : ℤ),
      env.agents[k]? = some a → a.alive = true →
      d a.id = some (Action.TALK, some p) →
      trustIdx (resolveOne d env k) k p
        = min 1 (round2 (trustIdx env k p + 1/20))) ∧
    (∀ (d : ℤ → Option Decision) (env : Env) (k i : Nat) (b : ℤ), i ≠ k →
      trustIdx (resolveOne d env k) i b = trustIdx env i b) ∧
    (∀ (d : ℤ → Option Decision) (env : Env) (k : Nat) (a : Agent) (b : ℤ)
      (act : Action) (prm : Option ℤ),
      env.agents[k]? = some a → d a.id = some (act, prm) →
      (act = Action.TALK → ∀ p, prm = some p → p ≠ b) →
      trustIdx (resolveOne d env k) k b = trustIdx env k b) ∧
    (∀ (env : Env) (i : Nat) (b : ℤ),
      trustIdx (updateRoomAgents env) i b = trustIdx env i b ∧
      trustIdx (regenFood env) i b = trustIdx env i b ∧
      trustIdx (hungerPhase env) i b = trustIdx env i b) := by
  refine ⟨?_, ?_, ?_, ?_, ?_, ?_⟩
  · intro cfg rng n i b
    exact (stepFn_trust _ _ (runN_trustLe1 cfg rng n)).2 i b
  · intro cfg rng n i b
    exact runN_trustLe1 cfg rng n i b
  · intro d env k a p hga hal hd
    exact resolveOne_talk_trustIdx d env k a p hga hal hd
  · intro d env k i b hik
    exact resolveOne_other_trustIdx d env k i b hik
  · intro d env k a b act prm hga hd hnb
    exact resolveOne_nontalk_trustIdx d env k a b act prm hga hd hnb
  · intro env i b
    exact ⟨rfl, rfl, hungerPhase_trustIdx env i b⟩

/-- C7 witness: the TALK clause and both no-change clauses of the
theorem applied to the concrete `envW7`/`dW7`. -/
theorem C7_trust_monotone_capped_talk_only_witness :
    trustIdx (resolveOne dW7 envW7 0) 0 1
      = min 1 (round2 (trustIdx envW7 0 1 + 1/20)) ∧
    trustIdx (resolveOne dW7 envW7 0) 1 5 = trustIdx envW7 1 5 ∧
    trustIdx (resolveOne dW7 envW7 1) 1 1 = trustIdx envW7 1 1 := by
  have h := C7_trust_monotone_capped_talk_only
  refine ⟨h.2.2.1 dW7 envW7 0 agW7a 1 rfl rfl rfl,
    h.2.2.2.1 dW7 envW7 0 1 5 (by norm_num),
    h.2.2.2.2.1 dW7 envW7 1 agW7b 1 Action.EAT none rfl rfl ?_⟩
  intro hE
  exact absurd hE (by simp)

/-- C10.  The engine never reads the `EnvironmentConfig` parameters
(`Environment` receives only rooms, agents and a logger, and `step`
uses the literals 0.3, 0.05, 0.05, 0.05): two runs whose configurations
differ only in the `environment` section produce identical states after
every step and identical per-step action mappings. -/
theorem C10_engine_ignores_environment_config (cfg : Config) (e : EnvironmentConfig)
    (rng : Nat → ℤ → Nat) :
    (∀ n, runN { cfg with environment := e } rng n = runN cfg rng n) ∧
    (∀ n, runTrace { cfg with environment := e } rng n = runTrace cfg rng n) := by
  have hrun : ∀ n, runN { cfg with environment := e } rng n = runN cfg rng n := by
    intro n
    induction n with
    | zero => rfl
    | succ n ih => rw [runN, runN, ih]
  exact ⟨hrun, fun n => by rw [runTrace, runTrace, hrun n]⟩

end KillSim
